import Mathlib

/-!
Verification of the flashlight proxy (oxtoacart/flashlight) against its
natural-language specification.

The development shallowly embeds the certificate-bootstrapping code
(`initCerts`, `certificateFor`, src/unnamed/part_000 lines 256-328) and the
interception-tunnel code (`handleClientMITM`, `respondBadGateway`, `pipe`,
lines 190-249).

Modelling conventions:
- Go `time.Time` values are nanoseconds since the epoch, as `Int`.  Calendar
  arithmetic (`time.AddDate`) lives in Go's standard library, so the derived
  instants (`ONE_MONTH_FROM_TODAY`, `ONE_YEAR_FROM_TODAY`,
  `TEN_YEARS_FROM_TODAY`, the back-dated not-before) are environment inputs
  rather than recomputed here; `t.Before(u)` is `t < u`.
- File I/O is modelled by `Option` file contents (`none` = absent or
  unreadable) plus the file contents after the run; writes always succeed
  (the claims concern the success path of `initCerts`).
- The external keyman library's `pk.Certificate(template, issuer)` call is
  modelled as pairing the template with the issuer used to sign it
  (`SignedCert`); `LoadCertificateFromFile` returns the file contents.
-/

namespace Flashlight

/-- Go `time.Time.Nanosecond()`: the sub-second nanosecond offset of an
instant, for an instant expressed in nanoseconds since the epoch. -/
def goNanosecond (t : Int) : Int := t % 1000000000

/-- Go `crypto/x509` key-usage bit `x509.KeyUsageDigitalSignature`. -/
def KeyUsageDigitalSignature : Nat := 1

/-- Go `crypto/x509` key-usage bit `x509.KeyUsageKeyEncipherment`. -/
def KeyUsageKeyEncipherment : Nat := 4

/-- Go `crypto/x509` key-usage bit `x509.KeyUsageCertSign`. -/
def KeyUsageCertSign : Nat := 32

/-- Go `crypto/x509` extended key usages (only `ExtKeyUsageServerAuth` is
used by the program). -/
inductive ExtKeyUsage where
  | serverAuth
  deriving DecidableEq

/-- An x509 certificate, restricted to the fields the program sets or reads
(src/unnamed/part_000 lines 307-318). -/
structure Certificate where
  subjectCN : String
  subjectOrg : List String
  serialNumber : Int
  notBefore : Int
  notAfter : Int
  basicConstraintsValid : Bool
  keyUsage : Nat
  extKeyUsage : List ExtKeyUsage
  isCA : Bool
  deriving DecidableEq

/-- A certificate together with the certificate that signed it
(`none` = self-signed), the result of keyman's
`pk.Certificate(template, issuer)`. -/
structure SignedCert where
  cert : Certificate
  issuer : Option Certificate
  deriving DecidableEq

/-- The two `time.Now()`-derived values read inside `certificateFor`
(line 308 for the serial, line 313 for the back-dated not-before). -/
structure GenTime where
  now : Int
  oneMonthBefore : Int
  deriving DecidableEq

/-- Embedding of `certificateFor` (src/unnamed/part_000 lines 302-328):
builds the x509 template (serial = `time.Now().Nanosecond()`, subject
organization "Lantern", common name `name`, not-before back-dated one month,
not-after `validUntil`, key usage KeyEncipherment|DigitalSignature), then,
only when `issuer` is nil, adds CertSign when `isCA`, sets extended key
usage [ServerAuth] and the CA flag; finally signs with `issuer`. -/
def certificateFor (gt : GenTime) (name : String) (validUntil : Int)
    ( isCA : Bool) (issuer : Option Certificate) : SignedCert :=
  let template : Certificate :=
    { subjectCN := name
      subjectOrg := ["Lantern"]
      serialNumber := goNanosecond gt.now
      notBefore := gt.oneMonthBefore
      notAfter := validUntil
      basicConstraintsValid := true
      keyUsage := KeyUsageKeyEncipherment ||| KeyUsageDigitalSignature
      extKeyUsage := []
      isCA := false }
  let template2 : Certificate :=
    match issuer with
    | none =>
        { template with
          keyUsage :=
            if isCA then template.keyUsage ||| KeyUsageCertSign
            else template.keyUsage
          extKeyUsage := [ExtKeyUsage.serverAuth]
          isCA := true }
    | some _ => template
  { cert := template2, issuer := issuer }

/-- The `time.AddDate`-derived instants computed once at startup
(src/unnamed/part_000 lines 52-54). -/
structure CertEnv where
  oneMonthFromToday : Int
  oneYearFromToday : Int
  tenYearsFromToday : Int
  deriving DecidableEq

/-- Inputs of a run of `initCerts`: the startup environment, the role
(`isDownstream` = client role; the server branch runs when `isUpstream`,
i.e. `!isDownstream`, line 284), the listen host passed at line 110, the
contents of the CA and server certificate files (`none` = absent or
unreadable), and the generation instants of the two possible
`certificateFor` calls. -/
structure InitInput where
  env : CertEnv
  isDownstream : Bool
  host : String
  caFile : Option Certificate
  serverFile : Option SignedCert
  caGen : GenTime
  serverGen : GenTime
  deriving DecidableEq

/-- Final state after `initCerts` returns nil: the package-level `caCert`
and `serverCert` variables, whether each was regenerated, the resulting
file contents, and whether the CA was installed as a trusted root. -/
structure InitResult where
  caCert : Certificate
  caRegenerated : Bool
  caFileAfter : Option Certificate
  addedTrustedRoot : Bool
  serverCert : Option SignedCert
  serverRegenerated : Bool
  serverFileAfter : Option SignedCert
  deriving DecidableEq

/-- The CA step of `initCerts` (lines 267-282): load the CA certificate; if
the load failed or `caCert.X509().NotAfter.Before(ONE_MONTH_FROM_TODAY)`,
generate a fresh self-signed CA via
`certificateFor("Lantern", TEN_YEARS_FROM_TODAY, true, nil)`.  Returns the
resulting `caCert` and whether it was regenerated. -/
def initCertsCA (inp : InitInput) : Certificate × Bool :=
  match inp.caFile with
  | none =>
      ((certificateFor inp.caGen "Lantern" inp.env.tenYearsFromToday true none).cert,
        true)
  | some c =>
      if c.notAfter < inp.env.oneMonthFromToday then
        ((certificateFor inp.caGen "Lantern" inp.env.tenYearsFromToday true none).cert,
          true)
      else (c, false)

/-- The server step of `initCerts` (lines 284-295), run only in the server
role: load the server certificate; if the load failed or
`caCert.X509().NotAfter.Before(ONE_MONTH_FROM_TODAY)` (note: the condition
at line 286 reads the CA certificate's not-after, not the server
certificate's), generate
`certificateFor(host, ONE_YEAR_FROM_TODAY, true, caCert)`.  Returns the
resulting `serverCert` and whether it was regenerated. -/
def initCertsServer (inp : InitInput) (caCert : Certificate) :
    Option SignedCert × Bool :=
  if inp.isDownstream then (none, false)
  else
    match inp.serverFile with
    | none =>
        (some (certificateFor inp.serverGen inp.host inp.env.oneYearFromToday
            true (some caCert)), true)
    | some sc =>
        if caCert.notAfter < inp.env.oneMonthFromToday then
          (some (certificateFor inp.serverGen inp.host inp.env.oneYearFromToday
              true (some caCert)), true)
        else (some sc, false)

/-- Embedding of `initCerts` (src/unnamed/part_000 lines 256-297), success
path.  The private-key step (lines 257-265) is independent of every claim
and is not modelled.  Regenerated certificates are written back to their
files; a regenerated CA is installed as a trusted root only in the client
role (lines 276-281). -/
def initCerts (inp : InitInput) : InitResult :=
  let ca := initCertsCA inp
  let srv := initCertsServer inp ca.1
  { caCert := ca.1
    caRegenerated := ca.2
    caFileAfter := if ca.2 then some ca.1 else inp.caFile
    addedTrustedRoot := ca.2 && inp.isDownstream
    serverCert := srv.1
    serverRegenerated := srv.2
    serverFileAfter := if srv.2 then srv.1 else inp.serverFile }

/-! Concrete instantiations used to evaluate `initCerts` at specific
inputs.  Times are small nanosecond counts; only their order matters. -/

/-- A startup environment with now < one month (100) < one year (500) <
ten years (1000). -/
def envX : CertEnv :=
  { oneMonthFromToday := 100, oneYearFromToday := 500, tenYearsFromToday := 1000 }

/-- A generation instant (now = 7 ns past the epoch). -/
def gtX : GenTime := { now := 7, oneMonthBefore := 3 }

/-- A previously persisted CA certificate that is about to be rotated out
(not-after 150, within range but distinct from any fresh CA). -/
def oldCA : Certificate :=
  { subjectCN := "Lantern", subjectOrg := ["Lantern"], serialNumber := 1
    notBefore := 0, notAfter := 150, basicConstraintsValid := true
    keyUsage := 37, extKeyUsage := [ExtKeyUsage.serverAuth], isCA := true }

/-- A stored server certificate signed by `oldCA`, with its own not-after
far in the future (900). -/
def staleServer : SignedCert :=
  { cert :=
      { subjectCN := "example.com", subjectOrg := ["Lantern"], serialNumber := 2
        notBefore := 0, notAfter := 900, basicConstraintsValid := true
        keyUsage := 5, extKeyUsage := [], isCA := false }
    issuer := some oldCA }

/-- Server-role input in which the CA certificate file is unreadable (so
the CA is regenerated) while the stored server certificate, signed by the
old CA, loads fine. -/
def staleInput : InitInput :=
  { env := envX, isDownstream := false, host := "example.com"
    caFile := none, serverFile := some staleServer
    caGen := gtX, serverGen := gtX }

/-- A healthy persisted CA certificate (not-after 1000, far away). -/
def goodCA : Certificate :=
  { subjectCN := "Lantern", subjectOrg := ["Lantern"], serialNumber := 9
    notBefore := 0, notAfter := 1000, basicConstraintsValid := true
    keyUsage := 37, extKeyUsage := [ExtKeyUsage.serverAuth], isCA := true }

/-- A stored server certificate whose own not-after (10) is within one
month of now (threshold 100), i.e. about to expire. -/
def expiringServer : SignedCert :=
  { cert :=
      { subjectCN := "example.com", subjectOrg := ["Lantern"], serialNumber := 2
        notBefore := 0, notAfter := 10, basicConstraintsValid := true
        keyUsage := 5, extKeyUsage := [], isCA := false }
    issuer := some goodCA }

/-- Server-role input with a healthy CA on disk and an expiring server
certificate on disk. -/
def c2input : InitInput :=
  { env := envX, isDownstream := false, host := "example.com"
    caFile := some goodCA, serverFile := some expiringServer
    caGen := gtX, serverGen := gtX }

/-- Server-role input with a healthy CA on disk and no server certificate
file, forcing server-certificate generation. -/
def regenInput : InitInput :=
  { env := envX, isDownstream := false, host := "example.com"
    caFile := some goodCA, serverFile := none
    caGen := gtX, serverGen := gtX }

/-- Client-role input with a healthy CA on disk. -/
def c3input : InitInput :=
  { env := envX, isDownstream := true, host := "example.com"
    caFile := some goodCA, serverFile := none
    caGen := gtX, serverGen := gtX }

/-- C1: refuted by execution.  With the CA certificate file unreadable and
a loadable stored server certificate signed by the previous CA, `initCerts`
regenerates the CA (so the fresh CA's not-after is ten years away) but
keeps the stored server certificate, because line 286 tests the new CA's
not-after against `ONE_MONTH_FROM_TODAY`; the kept server certificate's
issuer is the rotated-out CA, not the currently-loaded one. -/
theorem initCerts_stale_issuer_kept :
    (initCerts staleInput).caRegenerated = true
    ∧ (initCerts staleInput).serverRegenerated = false
    ∧ (initCerts staleInput).serverCert = some staleServer
    ∧ staleServer.issuer = some oldCA
    ∧ decide (oldCA = (initCerts staleInput).caCert) = false := by decide

/-- C2: refuted by execution.  With a healthy CA on disk and a stored
server certificate whose own not-after (10) is within one month (threshold
100), `initCerts` keeps the expiring server certificate unchanged: the
regeneration condition at line 286 reads the CA certificate's not-after
instead of the server certificate's own. -/
theorem initCerts_expiring_server_kept :
    (initCerts c2input).caRegenerated = false
    ∧ (initCerts c2input).serverRegenerated = false
    ∧ (initCerts c2input).serverCert = some expiringServer
    ∧ decide (expiringServer.cert.notAfter < c2input.env.oneMonthFromToday) = true := by
  decide

/-- C3: `initCerts` regenerates the CA certificate exactly when the CA file
is absent/unreadable or the stored certificate's not-after is within one
month of now; a healthy stored CA is returned unchanged and its file is
untouched; a regenerated CA is the self-signed `certificateFor` result with
ten-year validity and the CA flag set, and it is persisted to the CA file. -/
theorem initCerts_ca_policy (inp : InitInput) :
    ((initCerts inp).caRegenerated = true ↔
      inp.caFile = none
        ∨ ∃ c, inp.caFile = some c ∧ c.notAfter < inp.env.oneMonthFromToday)
    ∧ (∀ c, inp.caFile = some c → ¬ c.notAfter < inp.env.oneMonthFromToday →
        (initCerts inp).caCert = c ∧ (initCerts inp).caFileAfter = inp.caFile
          ∧ (initCerts inp).caRegenerated = false)
    ∧ ((initCerts inp).caRegenerated = true →
        (initCerts inp).caCert
            = (certificateFor inp.caGen "Lantern" inp.env.tenYearsFromToday true none).cert
          ∧ (initCerts inp).caCert.isCA = true
          ∧ (initCerts inp).caCert.notAfter = inp.env.tenYearsFromToday
          ∧ (certificateFor inp.caGen "Lantern" inp.env.tenYearsFromToday true none).issuer
              = none
          ∧ (initCerts inp).caFileAfter = some (initCerts inp).caCert) := by
  rcases hca : inp.caFile with _ | c
  · refine ⟨?_, ?_, ?_⟩
    · simp [initCerts, initCertsCA, hca]
    · intro c hc
      exact absurd hc (by simp)
    · intro _
      refine ⟨by simp [initCerts, initCertsCA, hca], ?_, ?_, rfl,
        by simp [initCerts, initCertsCA, hca]⟩
      · simp [initCerts, initCertsCA, hca, certificateFor]
      · simp [initCerts, initCertsCA, hca, certificateFor]
  · by_cases hexp : c.notAfter < inp.env.oneMonthFromToday
    · refine ⟨?_, ?_, ?_⟩
      · simp only [initCerts, initCertsCA, hca, if_pos hexp]
        simp [hexp]
      · intro c2 hc2
        cases hc2
        intro hn
        exact absurd hexp hn
      · intro _
        refine ⟨by simp [initCerts, initCertsCA, hca, if_pos hexp], ?_, ?_, rfl,
          by simp [initCerts, initCertsCA, hca, if_pos hexp]⟩
        · simp [initCerts, initCertsCA, hca, if_pos hexp, certificateFor]
        · simp [initCerts, initCertsCA, hca, if_pos hexp, certificateFor]
    · refine ⟨?_, ?_, ?_⟩
      · simp only [initCerts, initCertsCA, hca, if_neg hexp]
        simp [hexp]
      · intro c2 hc2 _
        cases hc2
        exact ⟨by simp [initCerts, initCertsCA, hca, if_neg hexp],
          by simp [initCerts, initCertsCA, hca, if_neg hexp],
          by simp [initCerts, initCertsCA, hca, if_neg hexp]⟩
      · intro hr
        exact absurd hr (by simp [initCerts, initCertsCA, hca, if_neg hexp])

/-- C3 witness: concrete application of `initCerts_ca_policy` in the
keep-the-existing-CA case. -/
theorem initCerts_ca_policy_witness :
    (initCerts c3input).caCert = goodCA
    ∧ (initCerts c3input).caFileAfter = c3input.caFile
    ∧ (initCerts c3input).caRegenerated = false :=
  (initCerts_ca_policy c3input).2.1 goodCA (by decide) (by decide)

/-- C4: refuted by execution.  `certificateFor` takes its serial number
from `time.Now().Nanosecond()`, the sub-second component of the clock, so
two generations at distinct instants exactly one second apart (7 ns and
1000000007 ns past the epoch) receive the same serial number. -/
theorem certificateFor_serial_collision :
    (certificateFor { now := 7, oneMonthBefore := 3 } "a" 100 false none).cert.serialNumber
      = (certificateFor { now := 1000000007, oneMonthBefore := 3 } "a" 100 false none).cert.serialNumber
    ∧ decide ((7 : Int) = 1000000007) = false := by decide

/-- C5 counterexample: in the server role, the server certificate actually
generated by `initCerts` (via `certificateFor` with the CA as issuer)
carries no extended key usages at all: `certificateFor` attaches the
ServerAuth extended key usage only when `issuer` is nil (lines 319-325). -/
theorem initCerts_server_no_serverauth :
    (initCerts regenInput).serverRegenerated = true
    ∧ ((initCerts regenInput).serverCert.map (fun sc => sc.cert.extKeyUsage)) = some []
    ∧ ((initCerts regenInput).serverCert.map
        (fun sc => decide (ExtKeyUsage.serverAuth ∈ sc.cert.extKeyUsage))) = some false := by
  decide

/-- C5 (amended): every server certificate generated in the Server role is
signed by the current CA certificate and has key usage
digital-signature + key-encipherment, but an empty extended-key-usage list
and the CA flag unset. -/
theorem serverCert_keyusage (inp : InitInput)
    (h : (initCerts inp).serverRegenerated = true) :
    (initCerts inp).serverCert
      = some (certificateFor inp.serverGen inp.host inp.env.oneYearFromToday true
          (some (initCerts inp).caCert))
    ∧ ((initCerts inp).serverCert.map (fun sc => sc.cert.keyUsage))
        = some (KeyUsageKeyEncipherment ||| KeyUsageDigitalSignature)
    ∧ ((initCerts inp).serverCert.map (fun sc => sc.cert.extKeyUsage)) = some []
    ∧ ((initCerts inp).serverCert.map (fun sc => sc.cert.isCA)) = some false
    ∧ ((initCerts inp).serverCert.map (fun sc => sc.issuer))
        = some (some (initCerts inp).caCert) := by
  rcases hdown : inp.isDownstream with _ | _
  · rcases hsf : inp.serverFile with _ | sc
    · refine ⟨?_, ?_, ?_, ?_, ?_⟩ <;>
        simp [initCerts, initCertsServer, hdown, hsf, certificateFor]
    · by_cases hexp : (initCertsCA inp).1.notAfter < inp.env.oneMonthFromToday
      · refine ⟨?_, ?_, ?_, ?_, ?_⟩ <;>
          simp [initCerts, initCertsServer, hdown, hsf, if_pos hexp, certificateFor]
      · exact absurd h (by simp [initCerts, initCertsServer, hdown, hsf, if_neg hexp])
  · exact absurd h (by simp [initCerts, initCertsServer, hdown])

/-- C5 amended witness: concrete application of `serverCert_keyusage` at
the forced-regeneration input. -/
theorem serverCert_keyusage_witness :
    (initCerts regenInput).serverCert
      = some (certificateFor regenInput.serverGen regenInput.host
          regenInput.env.oneYearFromToday true (some (initCerts regenInput).caCert))
    ∧ ((initCerts regenInput).serverCert.map (fun sc => sc.cert.keyUsage))
        = some (KeyUsageKeyEncipherment ||| KeyUsageDigitalSignature)
    ∧ ((initCerts regenInput).serverCert.map (fun sc => sc.cert.extKeyUsage)) = some []
    ∧ ((initCerts regenInput).serverCert.map (fun sc => sc.cert.isCA)) = some false
    ∧ ((initCerts regenInput).serverCert.map (fun sc => sc.issuer))
        = some (some (initCerts regenInput).caCert) :=
  serverCert_keyusage regenInput (by decide)

/-- C10: the `isCA` argument of `certificateFor` only ever influences the
key-usage flags, and only for self-signed certificates.  With a non-nil
issuer the generated certificate has the CA flag unset and no extended key
usages whatever `isCA` is (and the result does not depend on `isCA` at
all); with a nil issuer the certificate has the CA flag set and the
ServerAuth extended key usage even when `isCA` is false, `isCA` adding only
the CertSign key-usage bit. -/
theorem certificateFor_isCA_scope (gt : GenTime) (name : String)
    (validUntil : Int) (b : Bool) (iss : Certificate) :
    ((certificateFor gt name validUntil b (some iss)).cert.isCA = false
      ∧ (certificateFor gt name validUntil b (some iss)).cert.extKeyUsage = []
      ∧ certificateFor gt name validUntil true (some iss)
          = certificateFor gt name validUntil false (some iss))
    ∧ ((certificateFor gt name validUntil b none).cert.isCA = true
      ∧ (certificateFor gt name validUntil b none).cert.extKeyUsage
          = [ExtKeyUsage.serverAuth]
      ∧ (certificateFor gt name validUntil false none).cert.keyUsage
          = KeyUsageKeyEncipherment ||| KeyUsageDigitalSignature
      ∧ (certificateFor gt name validUntil true none).cert.keyUsage
          = KeyUsageKeyEncipherment ||| KeyUsageDigitalSignature ||| KeyUsageCertSign) := by
  exact ⟨⟨rfl, rfl, rfl⟩, ⟨rfl, rfl, rfl, rfl⟩⟩

/-!
Interception tunnel (src/unnamed/part_000 lines 190-249).

Connections are modelled by the traces of events performed on them.
Requests are kept abstract (`Req`), and the composite per-request rewrite
applied by the tunnel (lines 212-216: set URL scheme/host, then
`cp.rewrite`, whose body lives outside src/) is an arbitrary function
parameter `rw`.
-/

/-- An event performed on a connection: a byte-string write or a close. -/
inductive ConnEv where
  | wrote (data : String)
  | closed
  deriving DecidableEq

/-- Embedding of `respondBadGateway` (lines 235-238): write the literal
`HTTP/1.1 502 Bad Gateway: <msg>` bytes to the local connection, then close
it. -/
def respondBadGateway (msg : String) : List ConnEv :=
  [ConnEv.wrote ("HTTP/1.1 502 Bad Gateway: " ++ msg), ConnEv.closed]

/-- Outcome of one `serverConn.Read()` call (line 202): a decoded request,
a clean end-of-stream (`io.EOF`), or any other read error. -/
inductive ReadOutcome (Req : Type) where
  | ok (r : Req)
  | eof
  | fail (msg : String)
  deriving DecidableEq

/-- An event observed on the upstream connection: a rewritten request
written by the decode loop (line 219), a byte forwarded by a relay copier
started by `pipe` (line 222), or a close (line 206). -/
inductive UpEv (Req : Type) where
  | reqWrite (r : Req)
  | relayed (b : Nat)
  | closed
  deriving DecidableEq

/-- The effects of a run of the decode loop: events on the upstream
connection, events on the local connection, and how many times `pipe` was
invoked. -/
structure LoopEffects (Req : Type) where
  upEvents : List (UpEv Req)
  localEvents : List ConnEv
  pipeCalls : Nat
  deriving DecidableEq

/-- Embedding of the decode loop of `handleClientMITM` (lines 199-224),
driven by the sequence of `serverConn.Read()` outcomes.  Each decoded
request is rewritten (`rw`) and written to the upstream connection, then
`pipe` is invoked; a clean EOF returns silently; any other read error
closes the upstream connection and responds
`Unable to read request: <msg>` as a bad gateway on the local connection
(lines 203-210).  An exhausted outcome list models a read that blocks
forever (no further effects). -/
def decodeLoop {Req : Type} (rw : Req → Req) :
    List (ReadOutcome Req) → LoopEffects Req
  | [] => { upEvents := [], localEvents := [], pipeCalls := 0 }
  | ReadOutcome.ok r :: rest =>
      let tail := decodeLoop rw rest
      { upEvents := UpEv.reqWrite (rw r) :: tail.upEvents
        localEvents := tail.localEvents
        pipeCalls := tail.pipeCalls + 1 }
  | ReadOutcome.eof :: _ =>
      { upEvents := [], localEvents := [], pipeCalls := 0 }
  | ReadOutcome.fail m :: _ =>
      { upEvents := [UpEv.closed]
        localEvents := respondBadGateway ("Unable to read request: " ++ m)
        pipeCalls := 0 }

/-- Embedding of `handleClientMITM` (lines 192-225): on a failed upstream
dial (`dialErr = some e`) the local connection first receives the
`respondBadGateway` events for `Unable to dial upstream proxy: <e>`
(lines 194-197; note the code then falls through to the decode loop);
the decode loop contributes the remaining local events and all upstream
events.  Returns (local-connection trace, upstream-connection trace). -/
def handleClientMITM {Req : Type} (rw : Req → Req) (dialErr : Option String)
    (reads : List (ReadOutcome Req)) : List ConnEv × List (UpEv Req) :=
  let pre : List ConnEv :=
    match dialErr with
    | some e => respondBadGateway ("Unable to dial upstream proxy: " ++ e)
    | none => []
  let loop := decodeLoop rw reads
  (pre ++ loop.localEvents, loop.upEvents)

/-- C6: whenever the upstream dial of `handleClientMITM` fails, the local
connection is sent the literal bytes
`HTTP/1.1 502 Bad Gateway: Unable to dial upstream proxy: <error>` (the
message carries the dial error text) and is closed immediately afterwards,
so the local client does not hang without a response. -/
theorem handleClientMITM_dial_failure {Req : Type} (rw : Req → Req)
    (e : String) (reads : List (ReadOutcome Req)) :
    (handleClientMITM rw (some e) reads).1
      = ConnEv.wrote ("HTTP/1.1 502 Bad Gateway: "
            ++ ("Unable to dial upstream proxy: " ++ e))
        :: ConnEv.closed :: (decodeLoop rw reads).localEvents := rfl

/-- C7: in the decode loop, after any number of successfully decoded
requests, a clean EOF terminates the loop with no bad-gateway response and
no upstream close, while any other read error closes the upstream
connection and sends the bad-gateway response to the local connection
before terminating. -/
theorem decodeLoop_eof_vs_fail {Req : Type} (rw : Req → Req)
    (rs : List Req) (m : String) :
    ((decodeLoop rw (rs.map ReadOutcome.ok ++ [ReadOutcome.eof])).localEvents = []
      ∧ (decodeLoop rw (rs.map ReadOutcome.ok ++ [ReadOutcome.eof])).upEvents
          = rs.map (fun r => UpEv.reqWrite (rw r)))
    ∧ ((decodeLoop rw (rs.map ReadOutcome.ok ++ [ReadOutcome.fail m])).localEvents
          = respondBadGateway ("Unable to read request: " ++ m)
      ∧ (decodeLoop rw (rs.map ReadOutcome.ok ++ [ReadOutcome.fail m])).upEvents
          = rs.map (fun r => UpEv.reqWrite (rw r)) ++ [UpEv.closed]) := by
  induction rs with
  | nil => simp [decodeLoop]
  | cons r rest ih =>
      simp only [List.map_cons, List.cons_append, decodeLoop, List.map]
      exact ⟨⟨ih.1.1, by simp [ih.1.2]⟩, ⟨ih.2.1, by simp [ih.2.2]⟩⟩

/-!
A small-step machine for one interception tunnel, allowing the relay
copiers started by `pipe` to interleave with the decode loop.  The main
goroutine executes lines 199-224 in program order (read request, write
rewritten request upstream, invoke `pipe`); a relay copier may forward a
local byte to the upstream connection only once `pipe` has been invoked.
-/

/-- Program counter of the tunnel's decode-loop goroutine. -/
inductive TunnelPC (Req : Type) where
  | reading
  | writing (r : Req)
  | piping
  | done
  deriving DecidableEq

/-- State of one interception tunnel: the decode goroutine's program
counter, the remaining read outcomes on the local connection, the local
bytes still available to the relay, whether `pipe` has been invoked, and
the trace observed on the upstream connection. -/
structure TunnelState (Req : Type) where
  pc : TunnelPC Req
  pending : List (ReadOutcome Req)
  relayAvail : List Nat
  pipeStarted : Bool
  upObs : List (UpEv Req)
  deriving DecidableEq

/-- All states reachable in one step of the tunnel.  The first group is the
decode goroutine (read at line 202 with its EOF/error branches, the
request write at line 219, the `pipe` call at line 222); the second group
is a relay copier forwarding one local byte upstream, enabled only after
`pipe` has started. -/
def tunnelNext {Req : Type} (rw : Req → Req) (s : TunnelState Req) :
    List (TunnelState Req) :=
  (match s.pc, s.pending with
    | TunnelPC.reading, ReadOutcome.ok r :: rest =>
        [{ s with pc := TunnelPC.writing r, pending := rest }]
    | TunnelPC.reading, ReadOutcome.eof :: rest =>
        [{ s with pc := TunnelPC.done, pending := rest }]
    | TunnelPC.reading, ReadOutcome.fail _ :: rest =>
        [{ s with pc := TunnelPC.done, pending := rest
                  upObs := s.upObs ++ [UpEv.closed] }]
    | TunnelPC.reading, [] => []
    | TunnelPC.writing r, _ =>
        [{ s with pc := TunnelPC.piping
                  upObs := s.upObs ++ [UpEv.reqWrite (rw r)] }]
    | TunnelPC.piping, _ =>
        [{ s with pc := TunnelPC.reading, pipeStarted := true }]
    | TunnelPC.done, _ => [])
  ++ (if s.pipeStarted then
        match s.relayAvail with
        | b :: rest =>
            [{ s with relayAvail := rest, upObs := s.upObs ++ [UpEv.relayed b] }]
        | [] => []
      else [])

/-- Reachability of tunnel states. -/
def TunnelReach {Req : Type} (rw : Req → Req) :
    TunnelState Req → TunnelState Req → Prop :=
  Relation.ReflTransGen (fun s t => t ∈ tunnelNext rw s)

/-- Initial tunnel state: about to read, with the first request `r1` at
the head of the local stream, relay bytes `avail` not yet forwardable. -/
def tunnelInit {Req : Type} (r1 : Req) (rest0 : List (ReadOutcome Req))
    (avail : List Nat) : TunnelState Req :=
  { pc := TunnelPC.reading, pending := ReadOutcome.ok r1 :: rest0
    relayAvail := avail, pipeStarted := false, upObs := [] }

/-- Invariant for C8: before anything is written upstream the relay is not
started and the goroutine is still handling the first request; once the
upstream trace is nonempty, its first event is the rewritten first
request. -/
def tunnelInv {Req : Type} (rw : Req → Req) (r1 : Req)
    (rest0 : List (ReadOutcome Req)) (s : TunnelState Req) : Prop :=
  (s.upObs = [] ∧ s.pipeStarted = false
    ∧ ((s.pc = TunnelPC.reading ∧ s.pending = ReadOutcome.ok r1 :: rest0)
        ∨ s.pc = TunnelPC.writing r1))
  ∨ ∃ t, s.upObs = UpEv.reqWrite (rw r1) :: t

/-- One tunnel step preserves `tunnelInv`. -/
theorem tunnelInv_step {Req : Type} (rw : Req → Req) (r1 : Req)
    (rest0 : List (ReadOutcome Req)) {s t : TunnelState Req}
    (hs : t ∈ tunnelNext rw s) (h : tunnelInv rw r1 rest0 s) :
    tunnelInv rw r1 rest0 t := by
  rcases List.mem_append.1 hs with hm | hm
  · rcases hpc : s.pc with _ | r | _ | _
    · rcases hpend : s.pending with _ | ⟨hd, rest⟩
      · simp [hpc, hpend] at hm
      · rcases hd with r | _ | m
        · simp only [hpc, hpend] at hm
          rcases List.mem_singleton.1 hm with rfl
          rcases h with ⟨hobs, hps, hmain⟩ | ⟨t, hobs⟩
          · rcases hmain with ⟨_, hp⟩ | hp
            · rw [hpend] at hp
              cases hp
              exact Or.inl ⟨hobs, hps, Or.inr rfl⟩
            · rw [hpc] at hp
              cases hp
          · exact Or.inr ⟨t, hobs⟩
        · simp only [hpc, hpend] at hm
          rcases List.mem_singleton.1 hm with rfl
          rcases h with ⟨hobs, hps, hmain⟩ | ⟨t, hobs⟩
          · rcases hmain with ⟨_, hp⟩ | hp
            · rw [hpend] at hp
              cases hp
            · rw [hpc] at hp
              cases hp
          · exact Or.inr ⟨t, hobs⟩
        · simp only [hpc, hpend] at hm
          rcases List.mem_singleton.1 hm with rfl
          rcases h with ⟨hobs, hps, hmain⟩ | ⟨t, hobs⟩
          · rcases hmain with ⟨_, hp⟩ | hp
            · rw [hpend] at hp
              cases hp
            · rw [hpc] at hp
              cases hp
          · exact Or.inr ⟨t ++ [UpEv.closed], by simp [hobs]⟩
    · simp only [hpc] at hm
      rcases List.mem_singleton.1 hm with rfl
      rcases h with ⟨hobs, hps, hmain⟩ | ⟨t, hobs⟩
      · rcases hmain with ⟨hp, _⟩ | hp
        · rw [hpc] at hp
          cases hp
        · rw [hpc] at hp
          cases hp
          exact Or.inr ⟨[], by simp [hobs]⟩
      · exact Or.inr ⟨t ++ [UpEv.reqWrite (rw r)], by simp [hobs]⟩
    · simp only [hpc] at hm
      rcases List.mem_singleton.1 hm with rfl
      rcases h with ⟨hobs, hps, hmain⟩ | ⟨t, hobs⟩
      · rcases hmain with ⟨hp, _⟩ | hp
        · rw [hpc] at hp
          cases hp
        · rw [hpc] at hp
          cases hp
      · exact Or.inr ⟨t, hobs⟩
    · simp [hpc] at hm
  · rcases hps : s.pipeStarted with _ | _
    · simp [hps] at hm
    · rcases hra : s.relayAvail with _ | ⟨b, rest⟩
      · simp [hps, hra] at hm
      · simp only [hps, hra, if_true] at hm
        rcases List.mem_singleton.1 hm with rfl
        rcases h with ⟨hobs, hps2, hmain⟩ | ⟨t, hobs⟩
        · rw [hps] at hps2
          cases hps2
        · exact Or.inr ⟨t ++ [UpEv.relayed b], by simp [hobs]⟩

/-- `tunnelInv` holds in every state reachable from the initial state. -/
theorem tunnelInv_reach {Req : Type} (rw : Req → Req) (r1 : Req)
    (rest0 : List (ReadOutcome Req)) (avail : List Nat)
    {s : TunnelState Req} (h : TunnelReach rw (tunnelInit r1 rest0 avail) s) :
    tunnelInv rw r1 rest0 s := by
  induction h with
  | refl => exact Or.inl ⟨rfl, rfl, Or.inl ⟨rfl, rfl⟩⟩
  | tail hab hbc ih => exact tunnelInv_step rw r1 rest0 hbc ih

/-- C8: in every reachable state of an interception tunnel, any byte the
relay has forwarded to the upstream connection appears strictly after the
rewritten first request, which occupies the first position of the
upstream trace. -/
theorem tunnel_first_request_before_relay {Req : Type} (rw : Req → Req)
    (r1 : Req) (rest0 : List (ReadOutcome Req)) (avail : List Nat)
    (s : TunnelState Req) (h : TunnelReach rw (tunnelInit r1 rest0 avail) s)
    (i : Nat) (b : Nat) (hrel : s.upObs.get? i = some (UpEv.relayed b)) :
    s.upObs.get? 0 = some (UpEv.reqWrite (rw r1)) ∧ 0 < i := by
  rcases tunnelInv_reach rw r1 rest0 avail h with ⟨hobs, -, -⟩ | ⟨t, hobs⟩
  · rw [hobs] at hrel
    simp at hrel
  · rw [hobs] at hrel ⊢
    refine ⟨rfl, ?_⟩
    rcases i with _ | i
    · simp at hrel
    · exact Nat.succ_pos i

/-- Intermediate state of the concrete C8 run: first request read. -/
def tunnelW1 : TunnelState Nat :=
  { pc := TunnelPC.writing 7, pending := [], relayAvail := [3]
    pipeStarted := false, upObs := [] }

/-- Intermediate state: rewritten first request written upstream. -/
def tunnelW2 : TunnelState Nat :=
  { pc := TunnelPC.piping, pending := [], relayAvail := [3]
    pipeStarted := false, upObs := [UpEv.reqWrite 7] }

/-- Intermediate state: `pipe` invoked, relay enabled. -/
def tunnelW3 : TunnelState Nat :=
  { pc := TunnelPC.reading, pending := [], relayAvail := [3]
    pipeStarted := true, upObs := [UpEv.reqWrite 7] }

/-- Final state of the concrete C8 run: one relayed byte forwarded. -/
def tunnelW4 : TunnelState Nat :=
  { pc := TunnelPC.reading, pending := [], relayAvail := []
    pipeStarted := true, upObs := [UpEv.reqWrite 7, UpEv.relayed 3] }

/-- C8 witness: a concrete four-step tunnel run (read, write, pipe, relay)
reaching a state with a relayed byte, to which
`tunnel_first_request_before_relay` applies. -/
theorem tunnel_first_request_before_relay_witness :
    tunnelW4.upObs.get? 0 = some (UpEv.reqWrite ((fun r => r) 7)) ∧ 0 < 1 := by
  have h1 : tunnelW1 ∈ tunnelNext (fun r => r) (tunnelInit 7 [] [3]) := by decide
  have h2 : tunnelW2 ∈ tunnelNext (fun r => r) tunnelW1 := by decide
  have h3 : tunnelW3 ∈ tunnelNext (fun r => r) tunnelW2 := by decide
  have h4 : tunnelW4 ∈ tunnelNext (fun r => r) tunnelW3 := by decide
  have hr : TunnelReach (fun r => r) (tunnelInit 7 [] [3]) tunnelW4 :=
    Relation.ReflTransGen.tail
      (Relation.ReflTransGen.tail
        (Relation.ReflTransGen.tail (Relation.ReflTransGen.single h1) h2) h3) h4
  exact tunnel_first_request_before_relay (fun r => r) 7 [] [3] tunnelW4 hr 1 3
    (by decide)

/-!
The connection relay `pipe` (src/unnamed/part_000 lines 240-249): two
copier goroutines,

  go func() { defer connIn.Close();  io.Copy(connOut, connIn) }()
  go func() { defer connOut.Close(); io.Copy(connIn, connOut) }()

Copier A reads from `connIn` and writes to `connOut`; when its copy ends
(EOF on `connIn`, a read error, or a write error because `connOut` is
closed) its deferred call closes `connIn` -- the connection it was reading
from.  Copier B is symmetric.  A copier whose read blocks (no data, no
EOF, connection open) takes no step.
-/

/-- State of a `pipe` run: for each connection, the bytes its peer has
sent and not yet been consumed, whether the peer has shut down (EOF after
the data drains), and whether this process has closed the connection;
plus, per copier, whether it has finished, and the bytes each copier has
forwarded. -/
structure PipeState where
  inData : List Nat
  inEOF : Bool
  inClosed : Bool
  outData : List Nat
  outEOF : Bool
  outClosed : Bool
  aDone : Bool
  bDone : Bool
  upWritten : List Nat
  downWritten : List Nat
  deriving DecidableEq

/-- Copier A finishing: its deferred `connIn.Close()` runs. -/
def pipeCloseA (s : PipeState) : PipeState :=
  { s with aDone := true, inClosed := true }

/-- Copier B finishing: its deferred `connOut.Close()` runs. -/
def pipeCloseB (s : PipeState) : PipeState :=
  { s with bDone := true, outClosed := true }

/-- Steps available to copier A (`io.Copy(connOut, connIn)` with
`defer connIn.Close()`): forward a byte while both ends permit it; finish
on EOF of `connIn`, on a read error (reading `connIn` after it was
closed), or on a write error (`connOut` closed); block otherwise. -/
def pipeNextA (s : PipeState) : List PipeState :=
  if s.aDone then []
  else if s.inClosed then [pipeCloseA s]
  else
    match s.inData with
    | [] => if s.inEOF then [pipeCloseA s] else []
    | b :: rest =>
        if s.outClosed then [pipeCloseA s]
        else [{ s with inData := rest, upWritten := s.upWritten ++ [b] }]

/-- Steps available to copier B (`io.Copy(connIn, connOut)` with
`defer connOut.Close()`), symmetric to `pipeNextA`. -/
def pipeNextB (s : PipeState) : List PipeState :=
  if s.bDone then []
  else if s.outClosed then [pipeCloseB s]
  else
    match s.outData with
    | [] => if s.outEOF then [pipeCloseB s] else []
    | b :: rest =>
        if s.inClosed then [pipeCloseB s]
        else [{ s with outData := rest, downWritten := s.downWritten ++ [b] }]

/-- All states reachable in one step of `pipe`. -/
def pipeNext (s : PipeState) : List PipeState := pipeNextA s ++ pipeNextB s

/-- Reachability of `pipe` states. -/
def PipeReach : PipeState → PipeState → Prop :=
  Relation.ReflTransGen (fun s t => t ∈ pipeNext s)

/-- State of `pipe` on entry: both connections open, both copiers running,
nothing forwarded yet; the available data and shutdown flags are the run's
inputs. -/
def pipeInit (inD : List Nat) (inE : Bool) (outD : List Nat) (outE : Bool) :
    PipeState :=
  { inData := inD, inEOF := inE, inClosed := false
    outData := outD, outEOF := outE, outClosed := false
    aDone := false, bDone := false, upWritten := [], downWritten := [] }

/-- The terminal state of the C9 counterexample run: the local connection
hit EOF and was closed by copier A, while the upstream connection stays
open with copier B blocked on it. -/
def pipeStuck : PipeState :=
  { inData := [], inEOF := true, inClosed := true
    outData := [], outEOF := false, outClosed := false
    aDone := true, bDone := false, upWritten := [], downWritten := [] }

/-- C9 counterexample: starting `pipe` with the local connection already at
EOF and a silent, open upstream connection, one step (copier A sees EOF and
closes `connIn`) reaches a state in which the local connection is closed,
the upstream connection is not, and no further step is enabled: the
execution leaves the upstream side open indefinitely after the local side
closed. -/
theorem pipe_half_open_leak :
    PipeReach (pipeInit [] true [] false) pipeStuck
    ∧ pipeStuck.inClosed = true
    ∧ pipeStuck.outClosed = false
    ∧ pipeNext pipeStuck = [] := by
  refine ⟨Relation.ReflTransGen.single ?_, by decide, by decide, by decide⟩
  decide

/-- One `pipe` step preserves the closure discipline: each copier's
finishing is what closes the connection it reads from. -/
theorem pipeInv_step {s t : PipeState} (hs : t ∈ pipeNext s)
    (h : s.inClosed = s.aDone ∧ s.outClosed = s.bDone) :
    t.inClosed = t.aDone ∧ t.outClosed = t.bDone := by
  rcases List.mem_append.1 hs with hm | hm
  · by_cases ha : s.aDone
    · simp [pipeNextA, ha] at hm
    · by_cases hic : s.inClosed
      · simp only [pipeNextA, ha, hic, if_false, if_true] at hm
        rcases List.mem_singleton.1 hm with rfl
        exact ⟨rfl, h.2⟩
      · rcases hd : s.inData with _ | ⟨b, rest⟩
        · by_cases he : s.inEOF
          · simp only [pipeNextA, ha, hic, hd, he, if_false, if_true] at hm
            rcases List.mem_singleton.1 hm with rfl
            exact ⟨rfl, h.2⟩
          · simp [pipeNextA, ha, hic, hd, he] at hm
        · by_cases hoc : s.outClosed
          · simp only [pipeNextA, ha, hic, hd, hoc, if_false, if_true] at hm
            rcases List.mem_singleton.1 hm with rfl
            exact ⟨rfl, h.2⟩
          · simp only [pipeNextA, ha, hic, hd, hoc, if_false] at hm
            rcases List.mem_singleton.1 hm with rfl
            simp_all
  · by_cases hb : s.bDone
    · simp [pipeNextB, hb] at hm
    · by_cases hoc : s.outClosed
      · simp only [pipeNextB, hb, hoc, if_false, if_true] at hm
        rcases List.mem_singleton.1 hm with rfl
        exact ⟨h.1, rfl⟩
      · rcases hd : s.outData with _ | ⟨b, rest⟩
        · by_cases he : s.outEOF
          · simp only [pipeNextB, hb, hoc, hd, he, if_false, if_true] at hm
            rcases List.mem_singleton.1 hm with rfl
            exact ⟨h.1, rfl⟩
          · simp [pipeNextB, hb, hoc, hd, he] at hm
        · by_cases hic : s.inClosed
          · simp only [pipeNextB, hb, hoc, hd, hic, if_false, if_true] at hm
            rcases List.mem_singleton.1 hm with rfl
            exact ⟨h.1, rfl⟩
          · simp only [pipeNextB, hb, hoc, hd, hic, if_false] at hm
            rcases List.mem_singleton.1 hm with rfl
            simp_all

/-- C9 (amended): throughout any `pipe` run, a connection is closed exactly
when the copier reading from it has finished; finishing one direction
closes only the connection that direction reads from, never the opposite
one, so one connection can remain open after the other closed. -/
theorem pipe_closes_own_side (inD : List Nat) (inE : Bool)
    (outD : List Nat) (outE : Bool) (s : PipeState)
    (h : PipeReach (pipeInit inD inE outD outE) s) :
    s.inClosed = s.aDone ∧ s.outClosed = s.bDone := by
  induction h with
  | refl => exact ⟨rfl, rfl⟩
  | tail hab hbc ih => exact pipeInv_step hbc ih

/-- C9 amended witness: `pipe_closes_own_side` applied to the concrete
one-step run of the counterexample. -/
theorem pipe_closes_own_side_witness :
    pipeStuck.inClosed = pipeStuck.aDone
    ∧ pipeStuck.outClosed = pipeStuck.bDone :=
  pipe_closes_own_side [] true [] false pipeStuck
    (Relation.ReflTransGen.single (by decide))

end Flashlight
